import Mathlib

/-!
Verification of the TutorFlow booking/availability subsystem.

The frontend components (`session-list`, `booking-form`,
`tutor-availability-form`) are embedded directly from the TypeScript
source.  The backend scheduling core (slot generator, conflict resolver,
booking ledger, state machine, availability validation) is declared in the
repository's documentation but its code is not present; those parts are
modelled from the specification and are marked as such in their doc
comments.

Times are represented as minutes: wall-clock times as minutes after
midnight, instants as minutes since an arbitrary epoch.
-/

namespace TutorFlow

/-- Booking status, from `types/tutor.ts`:
`'pending' | 'confirmed' | 'cancelled' | 'completed' | 'no_show'`. -/
inductive BookingStatus where
  | pending
  | confirmed
  | cancelled
  | completed
  | no_show
deriving DecidableEq, Repr

/-- User role, from `types/auth.ts`: `'student' | 'tutor' | 'admin'`. -/
inductive Role where
  | student
  | tutor
  | admin
deriving DecidableEq, Repr

/-! ### Session list (`components/bookings/session-list`, src/unnamed/part_006)

The three action buttons are rendered under these boolean conditions:
```
{(userRole === 'student' || userRole === 'tutor' || userRole === 'admin')
   && session.status !== 'cancelled' && ( <Cancel/> )}
{userRole !== 'student' && session.status === 'pending' && ( <Confirm/> )}
{userRole === 'admin' && session.status !== 'completed' && ( <Mark Completed/> )}
```
-/

/-- Condition under which the session list renders the Cancel button. -/
def cancelOffered (userRole : Role) (status : BookingStatus) : Bool :=
  (userRole == .student || userRole == .tutor || userRole == .admin)
    && status != .cancelled

/-- Condition under which the session list renders the Confirm button
(which calls `onUpdateStatus(id, 'confirmed')`). -/
def confirmOffered (userRole : Role) (status : BookingStatus) : Bool :=
  userRole != .student && status == .pending

/-- Condition under which the session list renders the Mark Completed button
(which calls `onUpdateStatus(id, 'completed')`). -/
def markCompletedOffered (userRole : Role) (status : BookingStatus) : Bool :=
  userRole == .admin && status != .completed

/-- Modelled from the spec: the backend Booking State Machine (§4.5) is not
in src/ (only `backend/README.md` declares `booking_service.py`).  Legal
transitions: `pending → confirmed`, `pending → cancelled`,
`confirmed → cancelled`, `confirmed → completed`; everything else is
illegal. -/
def canTransition (s t : BookingStatus) : Bool :=
  match s, t with
  | .pending, .confirmed => true
  | .pending, .cancelled => true
  | .confirmed, .cancelled => true
  | .confirmed, .completed => true
  | _, _ => false

/-! ### Booking form (`components/bookings/booking-form.tsx`) -/

/-- Source `z.union([z.literal(30), z.literal(60)])`: the duration field of
`bookingSchema` validates only the values 30 and 60. -/
def durationValid (duration : Int) : Bool :=
  duration == 30 || duration == 60

/-- The validated values of `bookingSchema`: a date (day index), a start
time (hours/minutes), a duration, a subject and notes. -/
structure BookingFormValues where
  date : Nat
  start_hh : Nat
  start_mm : Nat
  duration : Int
  subject : String
  notes : String
deriving Repr, DecidableEq

/-- Payload of `POST /bookings`, from `types/tutor.ts` (`BookingCreate`),
with instants as minutes. -/
structure BookingCreate where
  tutor_id : String
  subject : String
  start_time : Int
  end_time : Int
  notes : String
deriving Repr, DecidableEq

/-- Source `combineDateTime` of `booking-form.tsx`: combines the selected date and
the `HH:MM` start time into one instant (minutes since epoch; the
source builds a UTC ISO string the same way). -/
def combineDateTime (date hh mm : Nat) : Int :=
  (date * 1440 + hh * 60 + mm : Nat)

/-- Source `onSubmit` of `booking-form.tsx`: `start` and `end` are both
`combineDateTime(data.date, data.start_time)`, then
`endDate.setMinutes(endDate.getMinutes() + data.duration)` adds the
duration to the end instant. -/
def onSubmitBooking (tutorId : String) (data : BookingFormValues) : BookingCreate :=
  let start := combineDateTime data.date data.start_hh data.start_mm
  let endInstant := combineDateTime data.date data.start_hh data.start_mm + data.duration
  ⟨tutorId, data.subject, start, endInstant, data.notes⟩

/-! ### Availability form (`components/tutors/tutor-availability-form.tsx`)

The schedule state is a JS `Record<string, [string, string][]>`; we embed a
JS object as an ordered association list (string keys in insertion order).
-/

/-- A `[string, string]` pair of `HH:MM` wall-clock strings. -/
abbrev TimeBlock := String × String

/-- A JS `Record<string, [string, string][]>` as an ordered association
list of keys to time-block lists. -/
abbrev ScheduleRecord := List (String × List TimeBlock)

/-- Source `const WEEKDAYS = ['monday', ..., 'sunday']`. -/
def WEEKDAYS : List String :=
  ["monday", "tuesday", "wednesday", "thursday", "friday", "saturday", "sunday"]

/-- Source `emptySchedule()`: every weekday mapped to the empty block list. -/
def emptySchedule : ScheduleRecord :=
  WEEKDAYS.map (fun day => (day, []))

/-- JS property assignment / spread `{ ...prev, [day]: v }`: replaces the
value at an existing key in place, otherwise appends the key at the end. -/
def recordSet (r : ScheduleRecord) (day : String) (v : List TimeBlock) : ScheduleRecord :=
  if r.any (fun p => p.1 == day) then
    r.map (fun p => if p.1 == day then (p.1, v) else p)
  else r ++ [(day, v)]

/-- JS property read `prev[day]` (the handlers only read keys that are
present; a missing key reads as the empty list). -/
def recordGet (r : ScheduleRecord) (day : String) : List TimeBlock :=
  match r.find? (fun p => p.1 == day) with
  | some p => p.2
  | none => []

/-- The keys of the record, in order. -/
def recordKeys (r : ScheduleRecord) : List String :=
  r.map Prod.fst

/-- Source `mergedInitial` of the form component: start from `emptySchedule()` and
copy over each weekday present in `initialSchedule` (a JS array value is
truthy even when empty, so presence of the key is what matters). -/
def mergedInitial (initialSchedule : Option ScheduleRecord) : ScheduleRecord :=
  match initialSchedule with
  | none => emptySchedule
  | some ini =>
    WEEKDAYS.foldl (fun base day =>
      match ini.find? (fun p => p.1 == day) with
      | some p => recordSet base day p.2
      | none => base) emptySchedule

/-- Source `handleTimeChange(day, idx, which, value)`: replace one endpoint of the
block at `idx` for `day` (`which === 0` edits the start, else the end). -/
def handleTimeChange (schedule : ScheduleRecord) (day : String) (idx : Nat)
    (which : Nat) (value : String) : ScheduleRecord :=
  let updated := recordGet schedule day
  let cur := updated.getD idx ("", "")
  recordSet schedule day
    (updated.set idx (if which == 0 then (value, cur.2) else (cur.1, value)))

/-- Source `handleAddBlock(day)`: append a default `['09:00', '17:00']` block. -/
def handleAddBlock (schedule : ScheduleRecord) (day : String) : ScheduleRecord :=
  recordSet schedule day (recordGet schedule day ++ [("09:00", "17:00")])

/-- Source `handleRemoveBlock(day, idx)`: `splice(idx, 1)` on the day's list. -/
def handleRemoveBlock (schedule : ScheduleRecord) (day : String) (idx : Nat) : ScheduleRecord :=
  recordSet schedule day ((recordGet schedule day).eraseIdx idx)

/-! ### Backend scheduling core

`backend/README.md` and `TASKS.md` declare `booking_service.py` with
availability checking, conflict detection, status management and
cancellation policies, but the backend source is not in the repository
snapshot; the definitions below are modelled from the specification
(§4.1–§4.5, §5) and each says so in its doc comment. -/

/-- Weekday, one of seven symbolic values (§3). -/
inductive Weekday where
  | monday
  | tuesday
  | wednesday
  | thursday
  | friday
  | saturday
  | sunday
deriving DecidableEq, Repr

/-- The seven weekdays. -/
def weekdayList : List Weekday :=
  [.monday, .tuesday, .wednesday, .thursday, .friday, .saturday, .sunday]

/-- Modelled from the spec (§3, Availability Window): wall-clock start and
end offsets in minutes after midnight (`stop` stands for the window's end
offset; `end` is reserved in Lean). -/
structure Window where
  start : Nat
  stop : Nat
deriving DecidableEq, Repr

/-- A tutor's weekly availability: weekday to ordered window list. -/
abbrev WeeklySchedule := Weekday → List Window

/-- Well-formed window: `start < end` (§4.1 constraint). -/
def windowOk (w : Window) : Bool :=
  decide (w.start < w.stop)

/-- Two wall-clock windows intersect, half-open `[start, end)`. -/
def windowsOverlap (a b : Window) : Bool :=
  decide (a.start < b.stop) && decide (b.start < a.stop)

/-- No two windows in the list overlap (§4.1 constraint). -/
def noOverlaps : List Window → Bool
  | [] => true
  | w :: ws => ws.all (fun v => !(windowsOverlap w v)) && noOverlaps ws

/-- One weekday's list is valid: each window well-formed, none overlap. -/
def dayValid (ws : List Window) : Bool :=
  ws.all windowOk && noOverlaps ws

/-- The whole submitted mapping is valid (§4.1). -/
def validSchedule (s : WeeklySchedule) : Bool :=
  weekdayList.all (fun d => dayValid (s d))

/-- Which conflict check failed (§4.4): outside the tutor's availability
windows, or intersecting an existing active booking. -/
inductive ConflictReason where
  | outsideAvailability
  | overlapsExisting
deriving DecidableEq, Repr

/-- Error taxonomy of §7. -/
inductive SchedulingError where
  | invalidIntervalError
  | validationError
  | conflictError (reason : ConflictReason)
  | illegalTransitionError
  | cancellationWindowError
  | notFoundError
deriving DecidableEq, Repr

/-- Stored availability per tutor; an absent tutor yields the empty
mapping (§4.1). -/
abbrev AvailabilityStore := String → WeeklySchedule

/-- The empty weekly mapping. -/
def emptyWeekly : WeeklySchedule := fun _ => []

/-- The store with no tutor schedules. -/
def emptyAvailabilityStore : AvailabilityStore := fun _ => emptyWeekly

/-- Modelled from the spec (§4.1 `setWeeklyAvailability`): replaces the
tutor's full schedule atomically; violating input is rejected with a
validation error and the previous schedule is left untouched
(all-or-nothing write). -/
def setWeeklyAvailability (st : AvailabilityStore) (tutorId : String)
    (s : WeeklySchedule) : Except SchedulingError AvailabilityStore :=
  if validSchedule s then
    .ok (fun t => if t == tutorId then s else st t)
  else .error .validationError

/-- Modelled from the spec (§4.1 `getWeeklyAvailability`): returns the
current mapping. -/
def getWeeklyAvailability (st : AvailabilityStore) (tutorId : String) : WeeklySchedule :=
  st tutorId

/-- Modelled from the spec (§4.2): walk forward from `current` in
`granularity` increments while `current + duration ≤ windowEnd`, emitting
each `current` as a candidate start.  The fuel argument only bounds the
recursion; `windowEnd + 1` steps always suffice when the granularity is
positive. -/
def slotWalk (fuel : Nat) (current windowEnd duration granularity : Nat) : List Nat :=
  match fuel with
  | 0 => []
  | fuel + 1 =>
    if current + duration ≤ windowEnd then
      current :: slotWalk fuel (current + granularity) windowEnd duration granularity
    else []

/-- Modelled from the spec (§4.2): the candidate starts of one window. -/
def slotsFromWindow (w : Window) (duration granularity : Nat) : List Nat :=
  slotWalk (w.stop + 1) w.start w.stop duration granularity

/-- Insert into an ascending list, keeping it ascending. -/
def insertAsc (x : Nat) : List Nat → List Nat
  | [] => [x]
  | y :: ys => if x ≤ y then x :: y :: ys else y :: insertAsc x ys

/-- Ascending sort by repeated insertion (§4.2's final sort). -/
def sortAsc (l : List Nat) : List Nat :=
  l.foldr insertAsc []

/-- Modelled from the spec (§4.2 `generateSlots`): concatenate the slot
lists of the weekday's windows in stored order, then sort ascending. -/
def generateSlots (sched : WeeklySchedule) (d : Weekday)
    (duration granularity : Nat) : List Nat :=
  sortAsc (((sched d).map (fun w => slotsFromWindow w duration granularity)).flatten)

/-- Persistent booking record (§3 and `types/tutor.ts`), instants in
minutes. -/
structure Booking where
  id : Nat
  tutor_id : String
  student_id : String
  subject : String
  start_time : Nat
  end_time : Nat
  status : BookingStatus
deriving DecidableEq, Repr

/-- Active booking: status pending or confirmed (glossary). -/
def isActive (b : Booking) : Bool :=
  b.status == .pending || b.status == .confirmed

/-- Half-open interval intersection `[s1, e1) ∩ [s2, e2) ≠ ∅` (§4.4(c)). -/
def intervalsOverlap (s1 e1 s2 e2 : Nat) : Bool :=
  decide (s1 < e2) && decide (s2 < e1)

/-- Modelled from the spec (§4.3): the Booking Ledger, the authoritative
list of bookings. -/
structure Ledger where
  bookings : List Booking
deriving DecidableEq, Repr

/-- Some active booking of this tutor intersects `[s, e)`. -/
def hasConflict (led : Ledger) (tutorId : String) (s e : Nat) : Bool :=
  led.bookings.any (fun b =>
    b.tutor_id == tutorId && isActive b
      && intervalsOverlap b.start_time b.end_time s e)

/-- Interval `[s, e)` lies entirely within one of the day's windows (§4.4(b)). -/
def withinAvailability (sched : WeeklySchedule) (d : Weekday) (s e : Nat) : Bool :=
  (sched d).any (fun w => decide (w.start ≤ s) && decide (e ≤ w.stop))

/-- Modelled from the spec (§4.3 `insert`, §4.4 checks, §5): create a
booking; the §5 serialization requirement makes check-then-insert one
atomic step per tutor.  Checks in order: end strictly after start, inside
an availability window, no intersection with an active booking; on success
the new booking enters at pending and is appended to the ledger. -/
def createBooking (sched : WeeklySchedule) (d : Weekday) (led : Ledger)
    (bookingId : Nat) (tutorId studentId subject : String) (s e : Nat) :
    Except SchedulingError (Booking × Ledger) :=
  if e ≤ s then .error .invalidIntervalError
  else if !(withinAvailability sched d s e) then
    .error (.conflictError .outsideAvailability)
  else if hasConflict led tutorId s e then
    .error (.conflictError .overlapsExisting)
  else
    let b : Booking := ⟨bookingId, tutorId, studentId, subject, s, e, .pending⟩
    .ok (b, ⟨led.bookings ++ [b]⟩)

/-- Cancellation-window configuration (§4.5): the threshold is a
configuration value of N hours, not a hardcoded constant. -/
structure Config where
  cancellationWindowHours : Nat
deriving DecidableEq, Repr

/-- Modelled from the spec (§4.5): cancel a booking at instant `now`
(minutes).  Cancelling from a terminal status is an illegal transition;
a start within `cancellationWindowHours` of `now` fails with
`cancellationWindowError`; on any error no updated ledger is produced, so
the stored record keeps its prior status. -/
def cancelBooking (cfg : Config) (now : Nat) (led : Ledger) (bookingId : Nat) :
    Except SchedulingError Ledger :=
  match led.bookings.find? (fun b => b.id == bookingId) with
  | none => .error .notFoundError
  | some b =>
    if !(canTransition b.status .cancelled) then .error .illegalTransitionError
    else if b.start_time < now + cfg.cancellationWindowHours * 60 then
      .error .cancellationWindowError
    else
      .ok ⟨led.bookings.map (fun x =>
        if x.id == bookingId then
          ⟨x.id, x.tutor_id, x.student_id, x.subject, x.start_time, x.end_time,
            .cancelled⟩
        else x)⟩

/-- A tutor schedule with a single Monday window 09:00–12:00
(540–720 minutes), the spec's example scenario. -/
def mondaySched : WeeklySchedule := fun d =>
  match d with
  | .monday => [⟨540, 720⟩]
  | _ => []

/-- The booking `[10:00, 10:30)` on tutor t1, used in concrete scenarios. -/
def bookingA : Booking := ⟨1, "t1", "s1", "math", 600, 630, .pending⟩

/-- The back-to-back booking `[10:30, 11:00)` on tutor t1. -/
def bookingB : Booking := ⟨2, "t1", "s2", "math", 630, 660, .pending⟩

/-- The store after saving the Monday 09:00–12:00 schedule for tutor t1. -/
def mondayStore : AvailabilityStore :=
  fun t => if t == "t1" then mondaySched else emptyAvailabilityStore t

/-- A schedule whose single Monday window has start ≥ end. -/
def badSched : WeeklySchedule := fun d =>
  match d with
  | .monday => [⟨600, 540⟩]
  | _ => []

/-- A confirmed booking starting at minute 1000. -/
def lateBooking : Booking := ⟨3, "t1", "s1", "math", 1000, 1060, .confirmed⟩

end TutorFlow

namespace TutorFlow

theorem recordKeys_recordSet_of_mem (r : ScheduleRecord) (day : String)
    (v : List TimeBlock) (h : day ∈ recordKeys r) :
    recordKeys (recordSet r day v) = recordKeys r := by
  have hany : r.any (fun p => p.1 == day) = true := by
    rw [List.any_eq_true]
    rcases List.mem_map.mp h with ⟨p, hp, hpd⟩
    exact ⟨p, hp, by simp [hpd]⟩
  simp only [recordSet, hany, if_true, recordKeys, List.map_map]
  apply List.map_congr_left
  intro p _
  simp only [Function.comp]
  split <;> rfl

theorem find?_map_setval (r : ScheduleRecord) (k day : String) (v : List TimeBlock)
    (hkd : (k == day) = false) :
    (r.map (fun p => if p.1 == k then (p.1, v) else p)).find? (fun p => p.1 == day)
      = r.find? (fun p => p.1 == day) := by
  induction r with
  | nil => rfl
  | cons p r ih =>
    rw [List.map_cons]
    by_cases hpk : (p.1 == k) = true
    · have hpd : (p.1 == day) = false := by
        have h1 : p.1 = k := by simpa using hpk
        rw [h1]; exact hkd
      rw [if_pos hpk]
      simp only [List.find?, hpd]
      exact ih
    · rw [if_neg hpk]
      by_cases hpd : (p.1 == day) = true
      · simp only [List.find?, hpd]
      · rw [Bool.not_eq_true] at hpd
        simp only [List.find?, hpd]
        exact ih

theorem find?_append_singleton (r : ScheduleRecord) (k day : String)
    (v : List TimeBlock) (hkd : (k == day) = false) :
    (r ++ [(k, v)]).find? (fun p => p.1 == day)
      = r.find? (fun p => p.1 == day) := by
  rw [List.find?_append]
  have h1 : ([(k, v)] : ScheduleRecord).find? (fun p => p.1 == day) = none := by
    simp only [List.find?, hkd]
  rw [h1]
  cases r.find? (fun p => p.1 == day) <;> rfl

theorem recordGet_recordSet_ne (r : ScheduleRecord) (k day : String)
    (v : List TimeBlock) (h : day ≠ k) :
    recordGet (recordSet r k v) day = recordGet r day := by
  have hkd : (k == day) = false := by
    simp only [beq_eq_false_iff_ne, ne_eq]
    exact fun hk => h hk.symm
  unfold recordSet
  by_cases hany : (r.any (fun p => p.1 == k)) = true
  · rw [if_pos hany]
    unfold recordGet
    rw [find?_map_setval r k day v hkd]
  · rw [if_neg hany]
    unfold recordGet
    rw [find?_append_singleton r k day v hkd]

theorem recordGet_const_empty (l : List String) (day : String) :
    recordGet (l.map (fun d => (d, ([] : List TimeBlock)))) day = [] := by
  induction l with
  | nil => rfl
  | cons d l ih =>
    rw [List.map_cons]
    unfold recordGet at ih ⊢
    by_cases hd : (d == day) = true
    · simp only [List.find?, hd]
    · rw [Bool.not_eq_true] at hd
      simp only [List.find?, hd]
      exact ih

theorem recordKeys_foldl_merge (m : ScheduleRecord) (l : List String)
    (acc : ScheduleRecord) (hl : ∀ d ∈ l, d ∈ recordKeys acc) :
    recordKeys (l.foldl (fun base day =>
      match m.find? (fun p => p.1 == day) with
      | some p => recordSet base day p.2
      | none => base) acc) = recordKeys acc := by
  induction l generalizing acc with
  | nil => rfl
  | cons d l ih =>
    simp only [List.foldl_cons]
    cases hfind : m.find? (fun p => p.1 == d) with
    | none =>
      exact ih acc (fun x hx => hl x (List.mem_cons_of_mem d hx))
    | some p =>
      have hmem : d ∈ recordKeys acc := hl d (List.mem_cons_self d l)
      have hkeys := recordKeys_recordSet_of_mem acc d p.2 hmem
      rw [ih (recordSet acc d p.2)
        (fun x hx => hkeys ▸ hl x (List.mem_cons_of_mem d hx)), hkeys]

theorem recordGet_foldl_merge_of_absent (m : ScheduleRecord) (day : String)
    (hnone : m.find? (fun p => p.1 == day) = none) (l : List String)
    (acc : ScheduleRecord) :
    recordGet (l.foldl (fun base d =>
      match m.find? (fun p => p.1 == d) with
      | some p => recordSet base d p.2
      | none => base) acc) day = recordGet acc day := by
  induction l generalizing acc with
  | nil => rfl
  | cons d l ih =>
    simp only [List.foldl_cons]
    cases hfind : m.find? (fun p => p.1 == d) with
    | none => exact ih acc
    | some p =>
      have hne : day ≠ d := by
        intro hEq
        rw [hEq, hfind] at hnone
        exact Option.noConfusion hnone
      rw [ih (recordSet acc d p.2), recordGet_recordSet_ne acc d day p.2 hne]

/-- C10: the availability form's schedule state always has exactly the
seven weekday keys monday..sunday: the merged initial state has them for
every input (also `undefined`), any day absent from the input reads as the
empty block list, and the three edit handlers preserve the key set. -/
theorem availability_form_keys_invariant :
    (∀ ini, recordKeys (mergedInitial ini) = WEEKDAYS) ∧
    (∀ day, recordGet (mergedInitial none) day = []) ∧
    (∀ m day, m.find? (fun p => p.1 == day) = none →
      recordGet (mergedInitial (some m)) day = []) ∧
    (∀ sched day idx which value, day ∈ WEEKDAYS → recordKeys sched = WEEKDAYS →
      recordKeys (handleTimeChange sched day idx which value) = WEEKDAYS ∧
      recordKeys (handleAddBlock sched day) = WEEKDAYS ∧
      recordKeys (handleRemoveBlock sched day idx) = WEEKDAYS) := by
  have hempty : recordKeys emptySchedule = WEEKDAYS := rfl
  refine ⟨?_, ?_, ?_, ?_⟩
  · intro ini
    cases ini with
    | none => exact hempty
    | some m =>
      unfold mergedInitial
      rw [recordKeys_foldl_merge m WEEKDAYS emptySchedule
        (fun d _ => by rw [hempty]; assumption), hempty]
  · intro day
    exact recordGet_const_empty WEEKDAYS day
  · intro m day hnone
    unfold mergedInitial
    rw [recordGet_foldl_merge_of_absent m day hnone WEEKDAYS emptySchedule]
    exact recordGet_const_empty WEEKDAYS day
  · intro sched day idx which value hday hkeys
    have hmem : day ∈ recordKeys sched := by rw [hkeys]; exact hday
    refine ⟨?_, ?_, ?_⟩
    · unfold handleTimeChange
      rw [recordKeys_recordSet_of_mem _ _ _ hmem, hkeys]
    · unfold handleAddBlock
      rw [recordKeys_recordSet_of_mem _ _ _ hmem, hkeys]
    · unfold handleRemoveBlock
      rw [recordKeys_recordSet_of_mem _ _ _ hmem, hkeys]

/-- Witness for C10 at a concrete schedule and day. -/
theorem availability_form_keys_invariant_witness :
    recordKeys (handleTimeChange emptySchedule "monday" 0 0 "10:00") = WEEKDAYS ∧
      recordKeys (handleAddBlock emptySchedule "monday") = WEEKDAYS ∧
      recordKeys (handleRemoveBlock emptySchedule "monday" 0) = WEEKDAYS :=
  availability_form_keys_invariant.2.2.2 emptySchedule "monday" 0 0 "10:00"
    (by decide) (by rfl)

/-- C8: the Confirm (pending → confirmed) action is offered if and only if
the booking is pending and the acting user's role is not student. -/
theorem confirm_offered_iff_pending_and_not_student
    (userRole : Role) (status : BookingStatus) :
    confirmOffered userRole status = true ↔
      (status = BookingStatus.pending ∧ userRole ≠ Role.student) := by
  cases userRole <;> cases status <;> simp [confirmOffered]

/-- C2 counterexample: the claim "completed and cancelled are terminal: no
status-update operation and no transition offered by the session-list
interface can leave them" is false on the code at a concrete input: for a
completed booking the session list offers the Cancel action (a transition
to cancelled) to a student, and for a cancelled booking it offers the
Mark Completed action to an administrator. -/
theorem terminal_states_counterexample :
    cancelOffered Role.student BookingStatus.completed = true ∧
      markCompletedOffered Role.admin BookingStatus.cancelled = true := by
  constructor <;> rfl

/-- C2 amended: the status-update state machine treats completed and
cancelled as terminal, and the session list offers no Confirm from either
state, no Cancel from cancelled and no Mark Completed from completed; but
it still offers Cancel on a completed booking to every role, and offers
Mark Completed on a cancelled booking exactly to administrators. -/
theorem terminal_states_amended :
    (∀ t, canTransition BookingStatus.completed t = false ∧
          canTransition BookingStatus.cancelled t = false) ∧
    (∀ r, confirmOffered r BookingStatus.completed = false ∧
          confirmOffered r BookingStatus.cancelled = false ∧
          cancelOffered r BookingStatus.cancelled = false ∧
          markCompletedOffered r BookingStatus.completed = false) ∧
    (∀ r, cancelOffered r BookingStatus.completed = true) ∧
    (∀ r, markCompletedOffered r BookingStatus.cancelled = (r == Role.admin)) := by
  refine ⟨?_, ?_, ?_, ?_⟩
  · intro t; cases t <;> exact ⟨rfl, rfl⟩
  · intro r; cases r <;> exact ⟨rfl, rfl, rfl, rfl⟩
  · intro r; cases r <;> rfl
  · intro r; cases r <;> rfl

/-- C7: every booking-creation request built by the booking form has
`end_time = start_time + duration`; under the form schema the duration is
exactly 30 or 60, so the end instant is strictly after the start. -/
theorem booking_form_end_after_start
    (tutorId : String) (data : BookingFormValues)
    (h : durationValid data.duration = true) :
    (onSubmitBooking tutorId data).end_time
        = (onSubmitBooking tutorId data).start_time + data.duration ∧
      (data.duration = 30 ∨ data.duration = 60) ∧
      (onSubmitBooking tutorId data).start_time
        < (onSubmitBooking tutorId data).end_time := by
  have hd : data.duration = 30 ∨ data.duration = 60 := by
    simpa [durationValid] using h
  refine ⟨rfl, hd, ?_⟩
  simp only [onSubmitBooking]
  rcases hd with h' | h' <;> omega

/-- Witness for C7 at a concrete validated form input. -/
theorem booking_form_end_after_start_witness :
    (onSubmitBooking "t1" ⟨10, 9, 30, 60, "math", ""⟩).end_time
        = (onSubmitBooking "t1" ⟨10, 9, 30, 60, "math", ""⟩).start_time + 60 ∧
      ((60 : Int) = 30 ∨ (60 : Int) = 60) ∧
      (onSubmitBooking "t1" ⟨10, 9, 30, 60, "math", ""⟩).start_time
        < (onSubmitBooking "t1" ⟨10, 9, 30, 60, "math", ""⟩).end_time :=
  booking_form_end_after_start "t1" ⟨10, 9, 30, 60, "math", ""⟩ (by decide)

theorem mem_weekdayList (d : Weekday) : d ∈ weekdayList := by
  cases d <;> decide

/-- C6: a successful set-weekly-availability followed immediately by
get-weekly-availability returns exactly the submitted mapping
(spec-modelled backend availability store). -/
theorem availability_round_trip (st : AvailabilityStore) (tutorId : String)
    (s : WeeklySchedule) (st' : AvailabilityStore)
    (h : setWeeklyAvailability st tutorId s = .ok st') :
    getWeeklyAvailability st' tutorId = s := by
  unfold setWeeklyAvailability at h
  by_cases hv : validSchedule s = true
  · rw [if_pos hv, Except.ok.injEq] at h
    rw [← h]
    unfold getWeeklyAvailability
    simp
  · rw [if_neg hv] at h
    exact absurd h (by simp)

/-- Witness for C6 at a concrete tutor and schedule. -/
theorem availability_round_trip_witness :
    getWeeklyAvailability mondayStore "t1" = mondaySched :=
  availability_round_trip emptyAvailabilityStore "t1" mondaySched mondayStore rfl

theorem noOverlaps_pairwise (l : List Window) :
    noOverlaps l = true ↔ l.Pairwise (fun a b => windowsOverlap a b = false) := by
  induction l with
  | nil => simp [noOverlaps]
  | cons w ws ih =>
    simp [noOverlaps, List.pairwise_cons, ih, List.all_eq_true]

/-- C3: submitting a weekly schedule containing a window with
start ≥ end, or two overlapping windows on the same weekday, is rejected
with a validation error; and every write is all-or-nothing: either the
full mapping is stored for the tutor (all other tutors untouched) or a
validation error is returned and nothing is written (spec-modelled
backend availability store). -/
theorem set_availability_rejects_invalid (st : AvailabilityStore)
    (tutorId : String) (s : WeeklySchedule)
    (h : (∃ d, ∃ w ∈ s d, w.stop ≤ w.start) ∨
         (∃ d, ∃ i j : Fin (s d).length, (i : Nat) < (j : Nat) ∧
            windowsOverlap ((s d).get i) ((s d).get j) = true)) :
    setWeeklyAvailability st tutorId s = .error .validationError ∧
      (∀ (st₂ : AvailabilityStore) (tid₂ : String) (s₂ : WeeklySchedule),
        setWeeklyAvailability st₂ tid₂ s₂ = .error .validationError ∨
        ∃ st', setWeeklyAvailability st₂ tid₂ s₂ = .ok st' ∧ st' tid₂ = s₂ ∧
          ∀ t, t ≠ tid₂ → st' t = st₂ t) := by
  have hvf : validSchedule s = false := by
    rcases Bool.eq_false_or_eq_true (validSchedule s) with hv | hvf
    swap
    · exact hvf
    · exfalso
      have hall := List.all_eq_true.mp (by simpa only [validSchedule] using hv)
      rcases h with ⟨d, w, hw, hws⟩ | ⟨d, i, j, hij, hov⟩
      · have hd : ((s d).all windowOk = true) ∧ (noOverlaps (s d) = true) := by
          simpa [dayValid, Bool.and_eq_true] using hall d (mem_weekdayList d)
        have h2 := List.all_eq_true.mp hd.1 w hw
        have h3 : w.start < w.stop := by simpa [windowOk] using h2
        omega
      · have hd : ((s d).all windowOk = true) ∧ (noOverlaps (s d) = true) := by
          simpa [dayValid, Bool.and_eq_true] using hall d (mem_weekdayList d)
        have h2 := (noOverlaps_pairwise (s d)).mp hd.2
        have h3 := List.pairwise_iff_get.mp h2 i j (Fin.lt_def.mpr hij)
        rw [hov] at h3
        exact Bool.noConfusion h3
  refine ⟨?_, ?_⟩
  · unfold setWeeklyAvailability
    rw [if_neg (by simp [hvf])]
  · intro st₂ tid₂ s₂
    unfold setWeeklyAvailability
    by_cases hv2 : validSchedule s₂ = true
    · rw [if_pos hv2]
      refine Or.inr ⟨_, rfl, by simp, ?_⟩
      intro t ht
      simp only [ite_eq_right_iff]
      intro hEq
      exact absurd (by simpa using hEq) ht
    · rw [if_neg hv2]
      exact Or.inl rfl

/-- Witness for C3 at a concrete invalid schedule. -/
theorem set_availability_rejects_invalid_witness :
    setWeeklyAvailability emptyAvailabilityStore "t1" badSched
      = .error .validationError :=
  (set_availability_rejects_invalid emptyAvailabilityStore "t1" badSched
    (Or.inl ⟨.monday, ⟨600, 540⟩, by decide, by decide⟩)).1

theorem slotWalk_mem (duration granularity : Nat) (hg : 0 < granularity) :
    ∀ (fuel current windowEnd : Nat), windowEnd + 1 ≤ fuel + current →
      ∀ x, x ∈ slotWalk fuel current windowEnd duration granularity ↔
        ∃ k, x = current + k * granularity ∧ x + duration ≤ windowEnd := by
  intro fuel
  induction fuel with
  | zero =>
    intro current windowEnd hfc x
    simp only [slotWalk, List.not_mem_nil, false_iff]
    rintro ⟨k, hk, hke⟩
    have hxc : current ≤ x := by rw [hk]; exact Nat.le_add_right _ _
    omega
  | succ fuel ih =>
    intro current windowEnd hfc x
    simp only [slotWalk]
    by_cases hc : current + duration ≤ windowEnd
    · rw [if_pos hc]
      constructor
      · intro hx
        rcases List.mem_cons.mp hx with hx | hx
        · exact ⟨0, by simpa using hx, by omega⟩
        · rcases (ih (current + granularity) windowEnd (by omega) x).mp hx
            with ⟨k, hk, hke⟩
          exact ⟨k + 1, by rw [hk]; ring, hke⟩
      · rintro ⟨k, hk, hke⟩
        cases k with
        | zero =>
          have hxc : x = current := by simpa using hk
          rw [hxc]
          exact List.mem_cons_self _ _
        | succ k =>
          apply List.mem_cons_of_mem
          apply (ih (current + granularity) windowEnd (by omega) x).mpr
          exact ⟨k, by rw [hk]; ring, hke⟩
    · rw [if_neg hc]
      simp only [List.not_mem_nil, false_iff]
      rintro ⟨k, hk, hke⟩
      have hxc : current ≤ x := by rw [hk]; exact Nat.le_add_right _ _
      omega

/-- C5: for the Monday 09:00–12:00 window, 60-minute slots at 30-minute
granularity are exactly 09:00, 09:30, 10:00, 10:30, 11:00 (in minutes:
540, 570, 600, 630, 660; 11:30 is excluded because 12:30 would exceed the
window end); in general a window emits exactly the starts
`start + k·granularity` with `start + k·granularity + duration ≤ end`
(spec-modelled slot generator). -/
theorem slot_generator_correct :
    generateSlots mondaySched Weekday.monday 60 30 = [540, 570, 600, 630, 660] ∧
      (∀ (w : Window) (duration granularity x : Nat), 0 < granularity →
        (x ∈ slotsFromWindow w duration granularity ↔
          ∃ k, x = w.start + k * granularity ∧ x + duration ≤ w.stop)) := by
  constructor
  · rfl
  · intro w duration granularity x hg
    exact slotWalk_mem duration granularity hg (w.stop + 1) w.start w.stop
      (by omega) x

/-- Witness for C5: 10:00 is a generated slot of the example window. -/
theorem slot_generator_correct_witness :
    600 ∈ slotsFromWindow ⟨540, 720⟩ 60 30 :=
  (slot_generator_correct.2 ⟨540, 720⟩ 60 30 600 (by decide)).mpr
    ⟨2, by decide, by decide⟩

/-- C4: conflict checks use half-open semantics: two intervals whose only
shared instant is the first one's end never intersect, and concretely,
booking `[10:00, 10:30)` and then `[10:30, 11:00)` for the same tutor both
succeed (spec-modelled conflict resolver and ledger). -/
theorem half_open_back_to_back :
    (∀ s1 e1 e2 : Nat, intervalsOverlap s1 e1 e1 e2 = false) ∧
      createBooking mondaySched Weekday.monday ⟨[]⟩ 1 "t1" "s1" "math" 600 630
        = .ok (bookingA, ⟨[bookingA]⟩) ∧
      createBooking mondaySched Weekday.monday ⟨[bookingA]⟩ 2 "t1" "s2" "math" 630 660
        = .ok (bookingB, ⟨[bookingA, bookingB]⟩) := by
  refine ⟨?_, rfl, rfl⟩
  intro s1 e1 e2
  simp [intervalsOverlap]

/-- C1: with the §5-mandated serialization of check-then-insert per tutor,
a concurrent pair of overlapping booking requests for the same tutor
executes as the two createBooking steps in one of the two orders; in
either order (covered here by generality over the requests) the one that
runs second fails with a `ConflictError`, so at most one succeeds
(spec-modelled booking ledger). -/
theorem concurrent_overlap_at_most_one (sched : WeeklySchedule) (d : Weekday)
    (led led' : Ledger) (b1 : Booking) (tutorId st1 st2 su1 su2 : String)
    (id1 id2 s1 e1 s2 e2 : Nat)
    (hov : intervalsOverlap s1 e1 s2 e2 = true)
    (h2 : s2 < e2)
    (h1 : createBooking sched d led id1 tutorId st1 su1 s1 e1 = .ok (b1, led')) :
    ∃ r, createBooking sched d led' id2 tutorId st2 su2 s2 e2
      = .error (.conflictError r) := by
  unfold createBooking at h1
  by_cases hc1 : e1 ≤ s1
  · rw [if_pos hc1] at h1; exact absurd h1 (by simp)
  rw [if_neg hc1] at h1
  by_cases hw1 : (!(withinAvailability sched d s1 e1)) = true
  · rw [if_pos hw1] at h1; exact absurd h1 (by simp)
  rw [if_neg hw1] at h1
  by_cases hcf : hasConflict led tutorId s1 e1 = true
  · rw [if_pos hcf] at h1; exact absurd h1 (by simp)
  rw [if_neg hcf] at h1
  rw [Except.ok.injEq, Prod.mk.injEq] at h1
  obtain ⟨hb, hl⟩ := h1
  unfold createBooking
  rw [if_neg (by omega)]
  by_cases hw2 : (!(withinAvailability sched d s2 e2)) = true
  · exact ⟨.outsideAvailability, by rw [if_pos hw2]⟩
  · have hconf : hasConflict led' tutorId s2 e2 = true := by
      unfold hasConflict
      rw [List.any_eq_true]
      refine ⟨⟨id1, tutorId, st1, su1, s1, e1, .pending⟩, ?_, ?_⟩
      · rw [← hl]
        exact List.mem_append_right _ (List.mem_singleton.mpr rfl)
      · simp [isActive, hov]
    rw [if_neg hw2, if_pos hconf]
    exact ⟨.overlapsExisting, rfl⟩

/-- Witness for C1: the second of two identical `[10:00, 10:30)` requests
fails with a ConflictError once the first has been inserted. -/
theorem concurrent_overlap_at_most_one_witness :
    ∃ r, createBooking mondaySched Weekday.monday ⟨[bookingA]⟩ 2 "t1" "s2" "math"
      600 630 = .error (SchedulingError.conflictError r) :=
  concurrent_overlap_at_most_one mondaySched Weekday.monday ⟨[]⟩ ⟨[bookingA]⟩
    bookingA "t1" "s1" "s2" "math" "math" 1 2 600 630 600 630
    (by decide) (by decide) rfl

/-- C9: for any configured threshold, cancelling a non-terminal booking
whose start lies within the configured window of `now` fails with a
`CancellationWindowError`; the operation produces no updated ledger, so
the stored booking keeps its status (spec-modelled state machine). -/
theorem cancellation_window_enforced (cfg : Config) (now : Nat) (led : Ledger)
    (bookingId : Nat) (b : Booking)
    (hfind : led.bookings.find? (fun x => x.id == bookingId) = some b)
    (hnt : canTransition b.status .cancelled = true)
    (hwin : b.start_time < now + cfg.cancellationWindowHours * 60) :
    cancelBooking cfg now led bookingId = .error .cancellationWindowError := by
  unfold cancelBooking
  rw [hfind]
  dsimp only
  rw [if_neg (by simp [hnt]), if_pos hwin]

/-- Witness for C9: a 24-hour window, ten minutes before the start. -/
theorem cancellation_window_enforced_witness :
    cancelBooking ⟨24⟩ 990 ⟨[lateBooking]⟩ 3 = .error .cancellationWindowError :=
  cancellation_window_enforced ⟨24⟩ 990 ⟨[lateBooking]⟩ 3 lateBooking
    (by decide) (by decide) (by decide)

end TutorFlow
